import Mathlib

/-!
Verification of the asic-rs device-identification and telemetry-normalization
pipeline. Rust sources are embedded shallowly: strings are `String`/`List Char`,
`serde_json::Value` is the inductive `JsonVal`, machine integers are `Nat`/`Int`,
fallible code returns `Option`/`Except`. Every definition is translated from the
repository's source; the few parts of the crate whose source files are not in
the tree (the `miners::data` collector/extractor module and the per-make model
and hardware tables) are modelled from the specification and are marked
`Modelled from the spec:` in their doc comments.
-/

/-! ## Character-list string utilities (ASCII models of the `str` methods used) -/

/-- ASCII whitespace test, modelling the whitespace classes used by
`str::trim` / `str::split_whitespace` on the ASCII payloads involved. -/
def charIsWs (c : Char) : Bool :=
  c == ' ' || c == '\r' || c == '\t' || c == '\n'

/-- Does `l` start with `pat`? (model of `str::starts_with`). -/
def listStartsWith : List Char → List Char → Bool
  | _, [] => true
  | [], _ :: _ => false
  | a :: as, b :: bs => a == b && listStartsWith as bs

/-- Does `l` contain `pat` as a contiguous substring? (model of `str::contains`). -/
def listContainsSub : List Char → List Char → Bool
  | [], pat => pat.isEmpty
  | l@(_ :: t), pat => listStartsWith l pat || listContainsSub t pat

/-- Model of `str::contains` on `String`s. -/
def strContains (s pat : String) : Bool := listContainsSub s.data pat.data

/-- Model of `str::to_uppercase`, restricted to ASCII (all payloads involved are ASCII). -/
def listToUpper (l : List Char) : List Char := l.map Char.toUpper

/-- Model of `str::to_uppercase` on `String`s (ASCII). -/
def strToUpper (s : String) : String := String.mk (listToUpper s.data)

/-- Model of `str::split(sep)` for a one-character separator: always returns at least
one (possibly empty) piece, like the Rust iterator collected to a `Vec`. -/
def splitOnChar (sep : Char) : List Char → List (List Char)
  | [] => [[]]
  | c :: t =>
    match splitOnChar sep t with
    | [] => [[c]]
    | h :: r => if c == sep then [] :: h :: r else (c :: h) :: r

/-- Model of `str::trim` (ASCII whitespace). -/
def listTrim (l : List Char) : List Char :=
  ((l.dropWhile (fun c => charIsWs c)).reverse.dropWhile (fun c => charIsWs c)).reverse

/-- Model of `str::trim_end_matches(ch)`: strip every trailing occurrence of `ch`. -/
def trimEndMatches (ch : Char) (l : List Char) : List Char :=
  (l.reverse.dropWhile (fun c => c == ch)).reverse

/-- Accumulator loop for `str::split_whitespace`. -/
def splitWsGo (cur : List Char) : List Char → List (List Char)
  | [] => if cur.isEmpty then [] else [cur.reverse]
  | c :: t =>
    if charIsWs c then
      if cur.isEmpty then splitWsGo [] t else cur.reverse :: splitWsGo [] t
    else splitWsGo (c :: cur) t

/-- Model of `str::split_whitespace` collected to a vector: maximal nonempty runs of
non-whitespace characters. -/
def splitWhitespace (l : List Char) : List (List Char) := splitWsGo [] l

/-- Model of `str::splitn(2, sep)` for a one-character separator, as the pair
(before first `sep`, after first `sep`); `none` when `sep` does not occur
(the Rust call then yields a single piece, `parts.len() != 2`). -/
def splitFirst (sep : Char) : List Char → Option (List Char × List Char)
  | [] => none
  | c :: t =>
    if c == sep then some ([], t)
    else (splitFirst sep t).map (fun p => (c :: p.1, p.2))

/-- Model of `str::split_once(pat)`: split at the first occurrence of the substring. -/
def splitOnceSub (pat : List Char) : List Char → Option (List Char × List Char)
  | [] => if pat.isEmpty then some ([], []) else none
  | c :: t =>
    if listStartsWith (c :: t) pat then some ([], (c :: t).drop pat.length)
    else (splitOnceSub pat t).map (fun p => (c :: p.1, p.2))

/-- Model of `slice::chunks(2)`. -/
def chunks2 : List α → List (List α)
  | [] => []
  | [a] => [[a]]
  | a :: b :: t => [a, b] :: chunks2 t

/-- Digit-accumulating loop for `u32::from_str` / `usize::from_str`. -/
def parseNatGo (acc : Nat) : List Char → Option Nat
  | [] => some acc
  | c :: t =>
    if c.isDigit then parseNatGo (10 * acc + (c.toNat - Char.toNat '0')) t else none

/-- Unsigned decimal parse (`usize::from_str` shape): optional leading `+`,
then one or more digits. -/
def parseNat (l : List Char) : Option Nat :=
  match l with
  | [] => none
  | '+' :: t => (if t.isEmpty then none else parseNatGo 0 t)
  | _ => parseNatGo 0 l

/-- Model of `u32::from_str`: decimal parse with the `u32` range check. -/
def parseU32 (l : List Char) : Option Nat :=
  (parseNat l).bind (fun n => if n < 4294967296 then some n else none)

/-! ## The JSON value model (`serde_json::Value`; numbers modelled as `Int`,
which is irrelevant to every claim settled here) -/

inductive JsonVal where
  | jnull : JsonVal
  | jbool (flag : Bool) : JsonVal
  | jnum (value : Int) : JsonVal
  | jstr (text : String) : JsonVal
  | jarr (items : List JsonVal) : JsonVal
  | jobj (entries : List (String × JsonVal)) : JsonVal

/-- First-match association lookup in an object's field list (a JSON object
cannot hold duplicate keys, so this is exactly the map lookup). -/
def assocFind : List (String × JsonVal) → String → Option JsonVal
  | [], _ => none
  | (k, v) :: t, key => if k == key then some v else assocFind t key

/-- Model of `Value::get(&str)`: key lookup on objects, `None` on every other shape. -/
def jsonGet (j : JsonVal) (key : String) : Option JsonVal :=
  match j with
  | .jobj kvs => assocFind kvs key
  | _ => none

/-- Model of `Value::get(usize)`: index lookup on arrays, `None` on every other shape. -/
def jsonIdx (j : JsonVal) (i : Nat) : Option JsonVal :=
  match j with
  | .jarr xs => xs.get? i
  | _ => none

/-- Model of `Value::as_str`. -/
def JsonVal.asStr : JsonVal → Option String
  | .jstr s => some s
  | _ => none

/-- Model of `Value::as_array`. -/
def JsonVal.asArray : JsonVal → Option (List JsonVal)
  | .jarr xs => some xs
  | _ => none

mutual
/-- Structural equality of JSON values (`PartialEq` on `serde_json::Value`). -/
def JsonVal.beq : JsonVal → JsonVal → Bool
  | .jnull, .jnull => true
  | .jbool x, .jbool y => x == y
  | .jnum x, .jnum y => x == y
  | .jstr x, .jstr y => x == y
  | .jarr xs, .jarr ys => JsonVal.beqList xs ys
  | .jobj xs, .jobj ys => JsonVal.beqObj xs ys
  | _, _ => false

/-- Elementwise equality of JSON arrays. -/
def JsonVal.beqList : List JsonVal → List JsonVal → Bool
  | [], [] => true
  | x :: xs, y :: ys => JsonVal.beq x y && JsonVal.beqList xs ys
  | _, _ => false

/-- Elementwise equality of JSON object field lists. -/
def JsonVal.beqObj : List (String × JsonVal) → List (String × JsonVal) → Bool
  | [], [] => true
  | (k1, v1) :: xs, (k2, v2) :: ys => k1 == k2 && JsonVal.beq v1 v2 && JsonVal.beqObj xs ys
  | _, _ => false
end

/-- JSON-pointer segment unescaping (`~1` is `/`, `~0` is `~`), as in
`serde_json::Value::pointer`. -/
def pointerUnescape : List Char → List Char
  | [] => []
  | '~' :: '1' :: t => '/' :: pointerUnescape t
  | '~' :: '0' :: t => '~' :: pointerUnescape t
  | c :: t => c :: pointerUnescape t

/-- One JSON-pointer navigation step: object-key lookup or array-index lookup,
`None` on a type mismatch. -/
def pointerStep (d : JsonVal) (seg : List Char) : Option JsonVal :=
  match d with
  | .jobj kvs => assocFind kvs (String.mk (pointerUnescape seg))
  | .jarr xs => (parseNat seg).bind (fun i => xs.get? i)
  | _ => none

/-- Model of `serde_json::Value::pointer`: `""` is the whole document, otherwise the
path must start with `/` and is followed segment by segment. -/
def JsonVal.pointer (doc : JsonVal) (p : String) : Option JsonVal :=
  match p.data with
  | [] => some doc
  | '/' :: rest => (splitOnChar '/' rest).foldlM pointerStep doc
  | _ => none

/-- Modelled from the spec: the generic pointer-path extractor of the absent
`miners::data` module (`get_by_pointer` behind a `DataExtractor`). Per the
spec's extraction contract, `path = None` (and `Some("")`) returns the whole
document; otherwise the slash-delimited pointer is followed, `None` on any
absent or type-mismatched segment. -/
def jsonExtract (doc : JsonVal) : Option String → Option JsonVal
  | none => some doc
  | some p => JsonVal.pointer doc p

/-! ## Device classification model (`src/data/device/mod.rs`,
`src/data/device/models/mod.rs`, `src/data/device/models/avalonminer.rs`) -/

inductive MinerFirmware where
  | Stock | BraiinsOS | VNish | EPic | HiveOS | LuxOS | Marathon | MSKMiner
  deriving DecidableEq

inductive MinerMake where
  | AntMiner | WhatsMiner | AvalonMiner | EPic | Braiins | Bitaxe
  deriving DecidableEq

inductive HashAlgorithm where
  | SHA256 | Scrypt | X11 | Blake2S256 | Kadena
  deriving DecidableEq

/-- The AvalonMiner model enumeration of
`src/data/device/models/avalonminer.rs` (the module that
`src/data/device/models/mod.rs` declares and imports). -/
inductive AvalonMinerModel where
  | A721 | A741 | A761 | A821 | A841 | A851 | A921 | A1026 | A1047 | A1066
  | A1126 | A1166 | A1246 | A1566 | Nano3 | Nano3S
  deriving DecidableEq

/-- Modelled from the spec: the AntMiner model enumeration table
(`models/antminer.rs`) is not in the source tree; the spec excludes
model-name enumeration tables as plumbing, so the enumeration is abstracted
as its row index. No claim settled here depends on its contents. -/
inductive AntMinerModel where
  | entry (idx : Nat)
  deriving DecidableEq

/-- Modelled from the spec: the WhatsMiner model enumeration table
(`models/whatsminer.rs`) is not in the source tree; abstracted as its row
index. -/
inductive WhatsMinerModel where
  | entry (idx : Nat)
  deriving DecidableEq

/-- Modelled from the spec: the Braiins model enumeration table
(`models/braiins.rs`) is not in the source tree; abstracted as its row
index. -/
inductive BraiinsModel where
  | entry (idx : Nat)
  deriving DecidableEq

/-- Modelled from the spec: the Bitaxe model enumeration table
(`models/bitaxe.rs`) is not in the source tree; abstracted as its row
index. -/
inductive BitaxeModel where
  | entry (idx : Nat)
  deriving DecidableEq

/-- Model of `MinerModel` (`src/data/device/models/mod.rs`): one variant per make. -/
inductive MinerModel where
  | AntMiner (m : AntMinerModel)
  | WhatsMiner (m : WhatsMinerModel)
  | AvalonMiner (m : AvalonMinerModel)
  | Braiins (m : BraiinsModel)
  | Bitaxe (m : BitaxeModel)
  deriving DecidableEq

/-- Model of `MinerHardware` (`src/data/device/mod.rs`): chip/fan/board counts. -/
structure MinerHardware where
  chips : Option Nat
  fans : Option Nat
  boards : Option Nat
  deriving DecidableEq

/-- Modelled from the spec: the per-model AntMiner hardware table
(`From<&AntMinerModel> for MinerHardware`, in an absent model-table file);
the spec describes it as a deterministic static lookup on the model, and no
claim settled here depends on the looked-up values. -/
def antMinerHardware : AntMinerModel → MinerHardware :=
  fun _ => ⟨none, none, none⟩

/-- Modelled from the spec: the per-model WhatsMiner hardware table (absent
model-table file); a deterministic static lookup. -/
def whatsMinerHardware : WhatsMinerModel → MinerHardware :=
  fun _ => ⟨none, none, none⟩

/-- Modelled from the spec: the per-model AvalonMiner hardware table (absent
from `models/avalonminer.rs`, which holds only the enumeration); a
deterministic static lookup. -/
def avalonMinerHardware : AvalonMinerModel → MinerHardware :=
  fun _ => ⟨none, none, none⟩

/-- Modelled from the spec: the per-model Braiins hardware table (absent
model-table file); a deterministic static lookup. -/
def braiinsHardware : BraiinsModel → MinerHardware :=
  fun _ => ⟨none, none, none⟩

/-- Modelled from the spec: the per-model Bitaxe hardware table (absent
model-table file); a deterministic static lookup. -/
def bitaxeHardware : BitaxeModel → MinerHardware :=
  fun _ => ⟨none, none, none⟩

/-- Model of `From<&MinerModel> for MinerHardware` (`src/data/device/mod.rs`): dispatch
on the model's make to the per-make static hardware table. (The source file
also names an `EPic` model arm, but the `MinerModel` enumeration in
`models/mod.rs` has no such variant, so the dispatch covers the five declared
variants.) -/
def MinerHardware.fromModel : MinerModel → MinerHardware
  | .AntMiner m => antMinerHardware m
  | .WhatsMiner m => whatsMinerHardware m
  | .AvalonMiner m => avalonMinerHardware m
  | .Braiins m => braiinsHardware m
  | .Bitaxe m => bitaxeHardware m

/-- Model of `DeviceInfo` (`src/data/device/mod.rs`). -/
structure DeviceInfo where
  make : MinerMake
  model : MinerModel
  hardware : MinerHardware
  firmware : MinerFirmware
  algo : HashAlgorithm
  deriving DecidableEq

/-- Model of `DeviceInfo::new` (`src/data/device/mod.rs` lines 80-92): the `hardware`
field is always derived from `model` by the static lookup; the constructor
takes no hardware argument. -/
def DeviceInfo.new (make : MinerMake) (model : MinerModel)
    (firmware : MinerFirmware) (algo : HashAlgorithm) : DeviceInfo :=
  { make := make
    hardware := MinerHardware.fromModel model
    model := model
    firmware := firmware
    algo := algo }

/-! ## Model-string parsing (`MinerModelFactory`,
`src/data/device/models/mod.rs` lines 73-126) -/

/-- Model of `MinerModelFactory`: optional make and firmware configuration. -/
structure MinerModelFactory where
  make : Option MinerMake
  firmware : Option MinerFirmware

/-- Model of `MinerModelFactory::new`. -/
def MinerModelFactory.new : MinerModelFactory := ⟨none, none⟩

/-- Model of `MinerModelFactory::with_make`. -/
def MinerModelFactory.with_make (f : MinerModelFactory) (make : MinerMake) :
    MinerModelFactory :=
  { f with make := some make }

/-- Model of `MinerModelFactory.with_firmware`. -/
def MinerModelFactory.with_firmware (f : MinerModelFactory)
    (firmware : MinerFirmware) : MinerModelFactory :=
  { f with firmware := some firmware }

/-- Model of `MinerModelFactory::parse_model` (`src/data/device/models/mod.rs` lines
94-125), with the three `FromStr` model-table parsers passed as parameters
because their table files are absent from the source tree (every theorem
below quantifies over them). The match structure is the source's: a
configured make other than AntMiner or WhatsMiner falls into the final
catch-all and yields `None`. -/
def MinerModelFactory.parse_model
    (antFromStr : String → Option AntMinerModel)
    (whatsFromStr : String → Option WhatsMinerModel)
    (braiinsFromStr : String → Option BraiinsModel)
    (f : MinerModelFactory) (model_str : String) : Option MinerModel :=
  match f.make with
  | some .AntMiner => (antFromStr model_str).map MinerModel.AntMiner
  | some .WhatsMiner => (whatsFromStr model_str).map MinerModel.WhatsMiner
  | none =>
    match f.firmware with
    | some .BraiinsOS =>
      match antFromStr model_str with
      | some m => some (MinerModel.AntMiner m)
      | none =>
        match braiinsFromStr model_str with
        | some m => some (MinerModel.Braiins m)
        | none => none
    | some .LuxOS =>
      match antFromStr model_str with
      | some m => some (MinerModel.AntMiner m)
      | none => none
    | none => none
    | _ => none
  | _ => none

/-- Model of `get_model_avalonminer` (`src/miners/factory/model/mod.rs` lines 220-262),
applied to the already-received JSON of the RPC `version` response (the
network call itself is the transport capability). Uppercases the
`/VERSION/0/PROD` string, strips a hyphenated suffix, applies the
nano/newer-model special cases, and hands the string to
`MinerModelFactory::parse_model` configured with make AvalonMiner; with no
usable `PROD` it falls back to `/VERSION/0/MODEL`. -/
def get_model_avalonminer
    (antFromStr : String → Option AntMinerModel)
    (whatsFromStr : String → Option WhatsMinerModel)
    (braiinsFromStr : String → Option BraiinsModel)
    (json_data : JsonVal) : Option MinerModel :=
  match (json_data.pointer "/VERSION/0/PROD").bind JsonVal.asStr with
  | some prod =>
    let mm0 := strToUpper prod
    let mm1 :=
      if strContains mm0 "-" then String.mk ((splitOnChar '-' mm0.data).headD [])
      else mm0
    let mm2 :=
      if mm1 == "AVALONNANO" || mm1 == "AVALON0O" || mm1 == "AVALONMINER 15" then
        match (json_data.pointer "/VERSION/0/MODEL").bind JsonVal.asStr with
        | some subtype => "AVALONMINER " ++ strToUpper subtype
        | none => mm1
      else mm1
    MinerModelFactory.parse_model antFromStr whatsFromStr braiinsFromStr
      ⟨some MinerMake.AvalonMiner, none⟩ mm2
  | none =>
    match (json_data.pointer "/VERSION/0/MODEL").bind JsonVal.asStr with
    | some model_str =>
      let model := strToUpper (String.mk ((splitOnChar '-' model_str.data).headD []))
      MinerModelFactory.parse_model antFromStr whatsFromStr braiinsFromStr
        ⟨some MinerMake.AvalonMiner, none⟩ model
    | none => none

example :
    (JsonVal.jobj [("VERSION", JsonVal.jarr [JsonVal.jobj [("PROD", JsonVal.jstr "AVALON1066-something")]])]).pointer
      "/VERSION/0/PROD" = some (JsonVal.jstr "AVALON1066-something") := rfl

example : strToUpper "AVALON1066-something" = "AVALON1066-SOMETHING" := rfl

example :
    String.mk ((splitOnChar '-' "AVALON1066-SOMETHING".data).headD []) = "AVALON1066" := rfl

/-! ## JSON serialization (`serde_json::Value::to_string`), used by the
discovery classification heuristic -/

/-- Lower-case hex digit for JSON control-character escapes. -/
def hexNibbleChar (n : Nat) : Char :=
  Char.ofNat (if n < 10 then n + '0'.toNat else n + 'a'.toNat - 10)

/-- JSON string-character escaping as `serde_json` emits it. -/
def escapeJsonChar (c : Char) : List Char :=
  if c == '"' then ['\\', '"']
  else if c == '\\' then ['\\', '\\']
  else if c == '\n' then ['\\', 'n']
  else if c == '\t' then ['\\', 't']
  else if c == '\r' then ['\\', 'r']
  else if c == '\x08' then ['\\', 'b']
  else if c == '\x0c' then ['\\', 'f']
  else if c.toNat < 32 then
    ['\\', 'u', '0', '0', hexNibbleChar (c.toNat / 16), hexNibbleChar (c.toNat % 16)]
  else [c]

/-- A JSON string literal with quotes and escapes. -/
def quoteJson (l : List Char) : List Char :=
  '"' :: (l.flatMap escapeJsonChar) ++ ['"']

mutual
/-- Compact JSON serialization (`Value::to_string`). Object fields are emitted
in field-list order; numbers are the modelled integers. Neither detail
affects any theorem below: the classification heuristics are stated about
whatever string this serializer produces, exactly as the source's heuristics
are stated about `Value::to_string`'s output. -/
def JsonVal.serialize : JsonVal → List Char
  | .jnull => ['n', 'u', 'l', 'l']
  | .jbool true => ['t', 'r', 'u', 'e']
  | .jbool false => ['f', 'a', 'l', 's', 'e']
  | .jnum n => (toString n).data
  | .jstr s => quoteJson s.data
  | .jarr xs => '[' :: JsonVal.serializeList xs ++ [']']
  | .jobj kvs => '\x7b' :: JsonVal.serializeObj kvs ++ ['\x7d']

/-- Comma-separated serialization of array elements. -/
def JsonVal.serializeList : List JsonVal → List Char
  | [] => []
  | [x] => JsonVal.serialize x
  | x :: y :: t => JsonVal.serialize x ++ ',' :: JsonVal.serializeList (y :: t)

/-- Comma-separated serialization of object fields. -/
def JsonVal.serializeObj : List (String × JsonVal) → List Char
  | [] => []
  | [(k, v)] => quoteJson k.data ++ ':' :: JsonVal.serialize v
  | (k, v) :: p :: t =>
    (quoteJson k.data ++ ':' :: JsonVal.serialize v) ++ ',' :: JsonVal.serializeObj (p :: t)
end

/-! ## Discovery phase-1 classification of RPC responses
(`parse_type_from_socket`, `src/miners/factory/mod.rs` lines 38-60) -/

/-- The uppercased serialized payload that `parse_type_from_socket` sniffs
(`response.to_string().to_uppercase()`). -/
def socketPayload (response : JsonVal) : String :=
  String.mk (listToUpper response.serialize)

/-- Model of `parse_type_from_socket` (`src/miners/factory/mod.rs` lines 38-60):
uppercase the serialized JSON and test vendor tokens in the source's match
order, first match winning. -/
def parse_type_from_socket (response : JsonVal) :
    Option (Option MinerMake × Option MinerFirmware) :=
  let json_string := socketPayload response
  if strContains json_string "BOSMINER" || strContains json_string "BOSER" then
    some (none, some MinerFirmware.BraiinsOS)
  else if strContains json_string "LUXMINER" then
    some (none, some MinerFirmware.LuxOS)
  else if strContains json_string "BITMICRO" || strContains json_string "BTMINER" then
    some (some MinerMake.WhatsMiner, some MinerFirmware.Stock)
  else if strContains json_string "ANTMINER" && !strContains json_string "DEVDETAILS" then
    some (some MinerMake.AntMiner, some MinerFirmware.Stock)
  else if strContains json_string "AVALON" then
    some (some MinerMake.AvalonMiner, some MinerFirmware.Stock)
  else if strContains json_string "VNISH" then
    some (none, some MinerFirmware.VNish)
  else none

/-- The classification priority list exactly as the specification words it:
BOSMINER/BOSER, then LUXMINER, then BITMICRO/BTMINER, then
ANTMINER-and-not-DEVDETAILS, then AVALON, then VNISH, first match winning,
otherwise no classification. Written from the spec's sentence for comparison
with the source's `parse_type_from_socket`. -/
def classifySocketSpec (response : JsonVal) :
    Option (Option MinerMake × Option MinerFirmware) :=
  let payload := socketPayload response
  if strContains payload "BOSMINER" || strContains payload "BOSER" then
    some (none, some MinerFirmware.BraiinsOS)
  else if strContains payload "LUXMINER" then
    some (none, some MinerFirmware.LuxOS)
  else if strContains payload "BITMICRO" || strContains payload "BTMINER" then
    some (some MinerMake.WhatsMiner, some MinerFirmware.Stock)
  else if strContains payload "ANTMINER" && !strContains payload "DEVDETAILS" then
    some (some MinerMake.AntMiner, some MinerFirmware.Stock)
  else if strContains payload "AVALON" then
    some (some MinerMake.AvalonMiner, some MinerFirmware.Stock)
  else if strContains payload "VNISH" then
    some (none, some MinerFirmware.VNish)
  else none

/-! ## RPC command status handling (`src/miners/api/rpc/status.rs`,
`src/miners/api/rpc/cgminer.rs`) -/

/-- The RPC error type. Its definition file (`api/rpc/errors.rs`) is absent
from the source tree; the variants are the ones constructed by the code that
is present: `ConnectionFailed` and `StatusCheckFailed` appear literally in
`cgminer.rs`/`status.rs`, and `JsonParse` stands for the `serde_json::Error`
conversion applied by the `?` operator in `parse_rpc_result`. -/
inductive RPCError where
  | ConnectionFailed
  | StatusCheckFailed (msg : String)
  | JsonParse
  deriving DecidableEq

/-- Model of `RPCCommandStatus` (`src/miners/api/rpc/status.rs`). -/
inductive RPCCommandStatus where
  | Success
  | Information
  | Error (msg : String)
  | Unknown
  deriving DecidableEq

/-- Model of `RPCCommandStatus::from_str` (`status.rs` lines 22-29): `"S"` is success,
`"I"` is information, `"E"` carries the message (defaulted), anything else is
unknown. -/
def RPCCommandStatus.from_str (response : String) (message : Option String) :
    RPCCommandStatus :=
  if response == "S" then .Success
  else if response == "I" then .Information
  else if response == "E" then .Error (message.getD "Unknown error")
  else .Unknown

/-- Model of `RPCCommandStatus::into_result` (`status.rs` lines 10-20). -/
def RPCCommandStatus.into_result : RPCCommandStatus → Except RPCError Unit
  | .Success => .ok ()
  | .Information => .ok ()
  | .Error msg => .error (.StatusCheckFailed msg)
  | .Unknown => .error (.StatusCheckFailed "Unknown status")

/-- Model of `CGMinerRPC::parse_rpc_result` (`src/miners/api/rpc/cgminer.rs` lines
84-107), taking the result of `serde_json::from_str` on the response text
(`none` models a text that does not parse as JSON, which the source's `?`
operator converts to an error). On a parsed value: look up `STATUS` as an
array, require it nonempty, read element 0's `STATUS` string, convert via
`RPCCommandStatus`; a success/information status returns the whole parsed
value, everything else is an error. -/
def parse_rpc_result (parsedText : Option JsonVal) : Except RPCError JsonVal :=
  match parsedText with
  | none => .error .JsonParse
  | some parsed =>
    match (jsonGet parsed "STATUS").bind JsonVal.asArray with
    | some (s0 :: _) =>
      match (jsonGet s0 "STATUS").bind JsonVal.asStr with
      | some status =>
        let message := (jsonGet s0 "Msg").bind JsonVal.asStr
        match (RPCCommandStatus.from_str status message).into_result with
        | .ok _ => .ok parsed
        | .error e => .error e
      | none => .error (.StatusCheckFailed "Invalid response format")
    | _ => .error (.StatusCheckFailed "Invalid response format")

/-- The `STATUS[0].STATUS` string of a parsed RPC response, when its shape
conforms (the condition the claim about `parse_rpc_result` is stated with). -/
def rpcStatusField (j : JsonVal) : Option String :=
  match (jsonGet j "STATUS").bind JsonVal.asArray with
  | some (s0 :: _) => (jsonGet s0 "STATUS").bind JsonVal.asStr
  | _ => none

/-! ## Range scanning (`get_miners_with_options`, `src/lib.rs` lines 33-64) -/

/-- The per-host result filter of `get_miners_with_options`:
`factory.get_miner(ip).await.ok().flatten()` keeps exactly the `Ok(Some(..))`
outcomes. -/
def okSome {E M : Type} : Except E (Option M) → Option M
  | .ok (some m) => some m
  | _ => none

/-- The host sweep of `get_miners_with_options`: every host of the range is
driven through `get_miner` and only `Ok(Some(..))` results are collected
(`buffer_unordered` + `filter_map`; the bounded-concurrency scheduling is
abstracted to the sequential sweep, which collects the same results). -/
def scanHosts {Ip E M : Type} (getMiner : Ip → Except E (Option M))
    (hosts : List Ip) : List M :=
  hosts.filterMap (fun ip => okSome (getMiner ip))

/-- Model of `get_miners_with_options` (`src/lib.rs` lines 33-64): parse the CIDR
range (the `ipnet` parser and the host enumeration are the external crate,
passed as a parameter), sweep the hosts, and return the collected miners; the
only error path is the range parse itself. -/
def get_miners_with_options {Ip E M : Type}
    (parseRange : String → Option (List Ip))
    (getMiner : Ip → Except E (Option M))
    (ip_range : String) : Except String (List M) :=
  match parseRange ip_range with
  | none => .error "invalid CIDR range"
  | some hosts => .ok (scanHosts getMiner hosts)

/-! ## Commands, fields and extractors (`miners::commands` / `miners::data`
are absent from the source tree; shapes follow the spec's data model and the
uses in the backends present) -/

/-- Model of `MinerCommand`: the spec's tagged command descriptor. The `RPC` variant's
shape (`command`, optional JSON `parameters`) is the one constructed
throughout the backends present in the tree; `WebAPI` follows the spec's
{command, method, parameters}. Identity is structural equality. -/
inductive MinerCommand where
  | RPC (command : String) (parameters : Option JsonVal)
  | WebAPI (command : String) (method : String) (parameters : Option JsonVal)

/-- Structural equality on optional JSON parameters. -/
def optionJsonBeq : Option JsonVal → Option JsonVal → Bool
  | none, none => true
  | some a, some b => JsonVal.beq a b
  | _, _ => false

/-- Structural equality of commands (`MinerCommand`'s derived `Eq`/`Hash`
identity, used as the deduplicating map key). -/
def MinerCommand.beq : MinerCommand → MinerCommand → Bool
  | .RPC c1 p1, .RPC c2 p2 => c1 == c2 && optionJsonBeq p1 p2
  | .WebAPI c1 m1 p1, .WebAPI c2 m2 p2 => c1 == c2 && m1 == m2 && optionJsonBeq p1 p2
  | _, _ => false

/-- Model of `DataField`: the abstract telemetry facets enumerated by the spec. -/
inductive DataField where
  | Mac | ApiVersion | FirmwareVersion | Hashrate | ExpectedHashrate
  | Hashboards | Fans | PsuFans | Wattage | WattageLimit | Pools | Uptime
  | IsMining | LightFlashing | SerialNumber | Hostname | Messages
  | FluidTemperature | ControlBoardVersion
  deriving DecidableEq

/-- Every `DataField`, the "all known fields" set of one collection pass. -/
def allDataFields : List DataField :=
  [.Mac, .ApiVersion, .FirmwareVersion, .Hashrate, .ExpectedHashrate,
   .Hashboards, .Fans, .PsuFans, .Wattage, .WattageLimit, .Pools, .Uptime,
   .IsMining, .LightFlashing, .SerialNumber, .Hostname, .Messages,
   .FluidTemperature, .ControlBoardVersion]

/-- The two extraction strategies stored as `func` in the backends' location
tables (`get_by_pointer` and `get_by_key` of the absent `miners::data`
module). -/
inductive ExtractFunc where
  | get_by_pointer
  | get_by_key
  deriving DecidableEq

/-- Model of `DataExtractor` as built by `whatsminer/v3/mod.rs`: an extraction
strategy, an optional path, and an optional disambiguating tag. -/
structure DataExtractor where
  func : ExtractFunc
  key : Option String
  tag : Option String

/-- Model of `DataExtractor` as built by `backends/avalon/avalon_miner.rs` (that file's
copy of the struct has no `tag` field). -/
structure AvalonExtractor where
  func : ExtractFunc
  key : Option String

/-- Modelled from the spec: applying an extraction strategy of the absent
`miners::data` module. The pointer strategy is the spec's extraction
contract (`None`/`""` means the whole document); the flat-key strategy
resolves one object key. -/
def ExtractFunc.apply : ExtractFunc → JsonVal → Option String → Option JsonVal
  | .get_by_pointer, doc, key => jsonExtract doc key
  | .get_by_key, doc, key =>
    match key with
    | none => some doc
    | some k => jsonGet doc k

/-- Apply a WhatsMiner-shaped extractor. -/
def DataExtractor.apply (e : DataExtractor) (doc : JsonVal) : Option JsonVal :=
  e.func.apply doc e.key

/-- Apply an Avalon-shaped extractor. -/
def AvalonExtractor.apply (e : AvalonExtractor) (doc : JsonVal) : Option JsonVal :=
  e.func.apply doc e.key

/-! ## The WhatsMiner v3 location map
(`src/miners/backends/whatsminer/v3/mod.rs` lines 49-217) -/

/-- The `get.device.info` RPC command of the WhatsMiner v3 map. -/
def get_device_info_cmd : MinerCommand := .RPC "get.device.info" none

/-- The `get.miner.status`/`summary` RPC command of the WhatsMiner v3 map. -/
def get_miner_status_summary_cmd : MinerCommand :=
  .RPC "get.miner.status" (some (JsonVal.jstr "summary"))

/-- The `get.miner.status`/`pools` RPC command of the WhatsMiner v3 map. -/
def get_miner_status_pools_cmd : MinerCommand :=
  .RPC "get.miner.status" (some (JsonVal.jstr "pools"))

/-- The `get.miner.status`/`edevs` RPC command of the WhatsMiner v3 map. -/
def get_miner_status_edevs_cmd : MinerCommand :=
  .RPC "get.miner.status" (some (JsonVal.jstr "edevs"))

/-- Model of `WhatsMinerV3::get_locations` (`src/miners/backends/whatsminer/v3/mod.rs`
lines 50-217), transcribed field by field. -/
def WhatsMinerV3.get_locations : DataField → List (MinerCommand × DataExtractor)
  | .Mac =>
    [(get_device_info_cmd, ⟨.get_by_pointer, some "/msg/network/mac", none⟩)]
  | .ApiVersion =>
    [(get_device_info_cmd, ⟨.get_by_pointer, some "/msg/system/api", none⟩)]
  | .FirmwareVersion =>
    [(get_device_info_cmd, ⟨.get_by_pointer, some "/msg/system/fwversion", none⟩)]
  | .ControlBoardVersion =>
    [(get_device_info_cmd, ⟨.get_by_pointer, some "/msg/system/platform", none⟩)]
  | .SerialNumber =>
    [(get_device_info_cmd, ⟨.get_by_pointer, some "/msg/miner/miner-sn", none⟩)]
  | .Hostname =>
    [(get_device_info_cmd, ⟨.get_by_pointer, some "/msg/network/hostname", none⟩)]
  | .LightFlashing =>
    [(get_device_info_cmd, ⟨.get_by_pointer, some "/msg/system/ledstatus", none⟩)]
  | .WattageLimit =>
    [(get_device_info_cmd, ⟨.get_by_pointer, some "/msg/miner/power-limit-set", none⟩)]
  | .Fans =>
    [(get_miner_status_summary_cmd, ⟨.get_by_pointer, some "/msg/summary", none⟩)]
  | .PsuFans =>
    [(get_device_info_cmd, ⟨.get_by_pointer, some "/msg/power/fanspeed", none⟩)]
  | .Hashboards =>
    [(get_device_info_cmd, ⟨.get_by_pointer, some "/msg/miner", none⟩),
     (get_miner_status_edevs_cmd, ⟨.get_by_key, some "msg", none⟩)]
  | .Pools =>
    [(get_miner_status_pools_cmd, ⟨.get_by_pointer, some "/msg/pools", none⟩)]
  | .Uptime =>
    [(get_miner_status_summary_cmd, ⟨.get_by_pointer, some "/msg/summary/elapsed", none⟩)]
  | .Wattage =>
    [(get_miner_status_summary_cmd,
      ⟨.get_by_pointer, some "/msg/summary/power-realtime", none⟩)]
  | .Hashrate =>
    [(get_miner_status_summary_cmd,
      ⟨.get_by_pointer, some "/msg/summary/hash-realtime", none⟩)]
  | .ExpectedHashrate =>
    [(get_miner_status_summary_cmd,
      ⟨.get_by_pointer, some "/msg/summary/factory-hash", none⟩)]
  | .FluidTemperature =>
    [(get_miner_status_summary_cmd,
      ⟨.get_by_pointer, some "/msg/summary/environment-temperature", none⟩)]
  | _ => []

/-! ## The data collector, modelled from the spec (the `miners::data` module
holding `DataCollector` is absent from the source tree) -/

/-- Insert a command into the accumulated distinct-command set unless an
equal command is already present (a `HashSet` insert, insertion-ordered). -/
def dedupInsert {C : Type} (beq : C → C → Bool) (acc : List C) (c : C) : List C :=
  if acc.any (fun x => beq x c) then acc else acc ++ [c]

/-- Modelled from the spec: collector step 2 — gather the commands referenced
by the requested fields' locations and deduplicate identical command values;
each command in the result is then issued exactly once (step 3). -/
def neededCommands {F C E : Type} (beq : C → C → Bool)
    (locs : F → List (C × E)) (fields : List F) : List C :=
  (fields.flatMap (fun f => (locs f).map Prod.fst)).foldl (dedupInsert beq) []

/-- Modelled from the spec: collector steps 3-4 for a single-location field —
the field's value is its extractor applied to its command's response, absent
when the command failed or the extraction missed. (Multi-location merging is
not exercised by any claim settled here.) -/
def collectField {E : Type} (applyEx : E → JsonVal → Option JsonVal)
    (locs : DataField → List (MinerCommand × E))
    (responses : MinerCommand → Option JsonVal) (f : DataField) : Option JsonVal :=
  match locs f with
  | [] => none
  | (cmd, ex) :: _ => (responses cmd).bind (fun r => applyEx ex r)

/-! ## The Avalon backend (`src/miners/backends/avalon/avalon_miner.rs`) -/

/-- Lazy tail of the regex `.+?\[.*?]`: consume `.*?` up to the first `]`
(`.` does not match a newline), returning the consumed characters and the
rest of the input after the `]`. -/
def splitAtClose : List Char → Option (List Char × List Char)
  | [] => none
  | c :: t =>
    if c == ']' then some ([], t)
    else if c == '\n' then none
    else (splitAtClose t).map (fun p => (c :: p.1, p.2))

/-- Backtracking loop for one leftmost lazy match of `.+?\[.*?]` whose first
`.+?` character is already in `acc`: at each subsequent `[`, first try to
close the bracket lazily; on failure the `[` is absorbed by `.+?` and the
scan continues. Returns the full match and the remaining input. -/
def matchHereGo (acc : List Char) : List Char → Option (List Char × List Char)
  | [] => none
  | c :: t =>
    if c == '\n' then none
    else if c == '[' then
      match splitAtClose t with
      | some p => some (acc ++ '[' :: (p.1 ++ [']']), p.2)
      | none => matchHereGo (acc ++ ['[']) t
    else matchHereGo (acc ++ [c]) t

/-- One match of `.+?\[.*?]` anchored at the start of the input (`.+?` must
consume at least one character before the literal `[`). -/
def matchHere : List Char → Option (List Char × List Char)
  | [] => none
  | c :: t => if c == '\n' then none else matchHereGo [c] t

/-- Fuelled scan for `Regex::find_iter`: successive non-overlapping leftmost
matches, advancing one character when no match starts at the current
position. Every step consumes at least one input character, so fuel equal to
the input length is exact. -/
def findIterGo : Nat → List Char → List (List Char)
  | 0, _ => []
  | _ + 1, [] => []
  | fuel + 1, c :: t =>
    match matchHere (c :: t) with
    | some p => p.1 :: findIterGo fuel p.2
    | none => findIterGo fuel t

/-- Model of `Regex::new(r".+?\[.*?]").find_iter(response)`, collected. -/
def findIter (l : List Char) : List (List Char) := findIterGo l.length l

/-- Model of `HashMap::insert`: overwrite the key's entry or append a new one. -/
def assocInsert : List (String × JsonVal) → String → JsonVal → List (String × JsonVal)
  | [], k, v => [(k, v)]
  | (k', v') :: t, k, v =>
    if k' == k then (k, v) :: t else (k', v') :: assocInsert t k v

/-- The per-match body of `parse_stats`'s loop (`avalon_miner.rs` lines
111-168): an item containing `": "` becomes a one-object array built from
comma-separated `key: value` pairs (or whitespace pairs when not all pieces
are key-value shaped); any other item maps its first whitespace-separated
key component to the array of whitespace-separated values inside the
brackets. -/
def parseStatsItem (stats : List (String × JsonVal)) (item : List Char) :
    List (String × JsonVal) :=
  if listContainsSub item (": ").data then
    match splitFirst '[' item with
    | none => stats
    | some parts =>
      let key_part := String.mk (listTrim parts.1)
      let inner_content := trimEndMatches ']' parts.2
      let pairs := (splitOnChar ',' inner_content).map listTrim
      let is_key_value := pairs.all (fun p => listContainsSub p (": ").data)
      let data_dict :=
        if is_key_value then
          pairs.foldl (fun d pr =>
            match splitOnceSub (": ").data pr with
            | some kv => assocInsert d (String.mk kv.1) (JsonVal.jstr (String.mk kv.2))
            | none => d) []
        else
          (chunks2 (splitWhitespace inner_content)).foldl (fun d ch =>
            match ch with
            | [a, b] => assocInsert d (String.mk a) (JsonVal.jstr (String.mk b))
            | _ => d) []
      assocInsert stats key_part (JsonVal.jarr [JsonVal.jobj data_dict])
  else
    match splitFirst '[' item with
    | none => stats
    | some parts =>
      let keys_str := listTrim parts.1
      let val_str := trimEndMatches ']' parts.2
      match splitWhitespace keys_str with
      | [] => stats
      | k0 :: _ =>
        assocInsert stats (String.mk k0)
          (JsonVal.jarr ((splitWhitespace val_str).map (fun w => JsonVal.jstr (String.mk w))))

/-- Model of `parse_stats` (`avalon_miner.rs` lines 107-171): run `.+?\[.*?]` over the
embedded mini-format string and accumulate the per-item entries into a map. -/
def parse_stats (response : List Char) : List (String × JsonVal) :=
  (findIter response).foldl parseStatsItem []

/-- Model of `extract_from_stats` (`avalon_miner.rs` lines 44-52): requires a key
(`let key = key?;` makes a `None` path yield `None`), digs
`STATS[0]["MM ID1"]` out of the response, parses the embedded stats string
and looks the key up. -/
def extract_from_stats (response : JsonVal) (key : Option String) : Option JsonVal :=
  match key with
  | none => none
  | some k =>
    (((jsonGet response "STATS").bind (fun a => jsonIdx a 0)).bind (fun so =>
      (jsonGet so "MM ID1").bind JsonVal.asStr)).bind (fun s =>
      assocFind (parse_stats s.data) k)

/-- Model of `FanData` restricted to the fields the Avalon backend populates: the fan
position and the rpm reading (`AngularVelocity::from_rpm` on the parsed
`u32`, modelled as the rpm count itself). -/
structure FanData where
  position : Nat
  rpm : Option Nat
  deriving DecidableEq

/-- Model of `extract_fans` (`avalon_miner.rs` lines 98-105): from the full `stats`
response, parse `STATS[0]["MM ID1"]`, read `Fan`'s first entry as a `u32`,
and produce `[{"position": 0, "rpm": speed}]`. -/
def extract_fans (response : JsonVal) (_key : Option String) : Option JsonVal :=
  ((jsonGet response "STATS").bind (fun a => jsonIdx a 0)).bind (fun so =>
    ((jsonGet so "MM ID1").bind JsonVal.asStr).bind (fun s =>
      (((assocFind (parse_stats s.data) "Fan").bind (fun v => jsonIdx v 0)).bind
          JsonVal.asStr).bind (fun sp =>
        (parseU32 sp.data).map (fun n =>
          JsonVal.jarr [JsonVal.jobj [("position", JsonVal.jnum 0), ("rpm", JsonVal.jnum n)]]))))

/-- The `version` RPC command of the Avalon location map. -/
def avalon_version_cmd : MinerCommand := .RPC "version" none

/-- The `stats` RPC command of the Avalon location map. -/
def avalon_stats_cmd : MinerCommand := .RPC "stats" none

/-- The `devs` RPC command of the Avalon location map. -/
def avalon_devs_cmd : MinerCommand := .RPC "devs" none

/-- The `pools` RPC command of the Avalon location map. -/
def avalon_pools_cmd : MinerCommand := .RPC "pools" none

/-- Model of `AvalonMiner::get_locations` (`avalon_miner.rs` lines 407-485),
transcribed field by field; note `Hashboards` and `Fans` both extract the
pointer `/STATS` from the `stats` command's response. -/
def AvalonMiner.get_locations : DataField → List (MinerCommand × AvalonExtractor)
  | .Mac => [(avalon_version_cmd, ⟨.get_by_pointer, some "/VERSION/0/MAC"⟩)]
  | .ApiVersion => [(avalon_version_cmd, ⟨.get_by_pointer, some "/VERSION/0/API"⟩)]
  | .FirmwareVersion =>
    [(avalon_version_cmd, ⟨.get_by_pointer, some "/VERSION/0/CGMiner"⟩)]
  | .Hashboards => [(avalon_stats_cmd, ⟨.get_by_pointer, some "/STATS"⟩)]
  | .Hashrate => [(avalon_devs_cmd, ⟨.get_by_pointer, some "/DEVS/0/MHS 1m"⟩)]
  | .Fans => [(avalon_stats_cmd, ⟨.get_by_pointer, some "/STATS"⟩)]
  | .Wattage => []
  | .Uptime => [(avalon_stats_cmd, ⟨.get_by_pointer, some "/STATS/0/Elapsed"⟩)]
  | .Pools => [(avalon_pools_cmd, ⟨.get_by_pointer, some "/POOLS"⟩)]
  | _ => []

/-- The fan-population portion of `AvalonMiner::get_data` (`avalon_miner.rs`
lines 201-214 and 289-301) as a function of the collected field map: read the
`Hashboards` entry, look up `STATS[0]["MM ID1"]` inside it, parse the stats
string, and emit one `FanData` at position 0 when `Fan`'s first entry parses
as a `u32`. (The rest of `get_data` — timestamps, boards, pools, the final
`MinerData` record — does not feed the fans list.) -/
def AvalonMiner.get_data_fans (data : DataField → Option JsonVal) : List FanData :=
  match data DataField.Hashboards with
  | none => []
  | some stats_value =>
    match ((jsonGet stats_value "STATS").bind (fun a => jsonIdx a 0)).bind
        (fun so => (jsonGet so "MM ID1").bind JsonVal.asStr) with
    | none => []
    | some stats_str =>
      match ((assocFind (parse_stats stats_str.data) "Fan").bind
          (fun v => jsonIdx v 0)).bind JsonVal.asStr with
      | none => []
      | some speed_str =>
        match parseU32 speed_str.data with
        | some rpm => [⟨0, some rpm⟩]
        | none => []

/-- The `stats` RPC stub response of the backend's own test
(`avalon_miner.rs` lines 704-728, `with_avalon_stats`), whose
`STATS[0]["MM ID1"]` string carries the fan token `Fan[5000]`. -/
def avalonStatsStubResponse : JsonVal :=
  JsonVal.jobj
    [("STATUS", JsonVal.jarr [JsonVal.jobj
        [("STATUS", JsonVal.jstr "S"), ("When", JsonVal.jnum 1662562633),
         ("Code", JsonVal.jnum 70), ("Msg", JsonVal.jstr "Summary"),
         ("Description", JsonVal.jstr "cgminer 4.9.0")]]),
     ("STATS", JsonVal.jarr [JsonVal.jobj
        [("MM ID1",
          JsonVal.jstr "Fan[5000] Temp[45-50-48] MW[1234.56 1245.67 1256.78] Elapsed[100]"),
         ("CGMiner", JsonVal.jstr "4.9.0"), ("Miner", JsonVal.jstr "1.0.0"),
         ("CompileTime", JsonVal.jstr "Tue Nov 29 13:36:09 UTC 2016"),
         ("Type", JsonVal.jstr "Avalon6")]]),
     ("id", JsonVal.jnum 1)]

/-- A transport stub that answers the `stats` RPC command with the test's
Avalon response and fails every other command. -/
def avalonStubResponses : MinerCommand → Option JsonVal
  | .RPC "stats" none => some avalonStatsStubResponse
  | _ => none

/-- The field map one `collect_all` pass builds for the Avalon backend over
the stub transport. -/
def avalonStubFieldMap : DataField → Option JsonVal :=
  collectField AvalonExtractor.apply AvalonMiner.get_locations avalonStubResponses

example :
    parse_stats "Fan[5000] Temp[45-50-48] MW[1234.56 1245.67 1256.78] Elapsed[100]".data
      = [("Fan", JsonVal.jarr [JsonVal.jstr "5000"]),
         ("Temp", JsonVal.jarr [JsonVal.jstr "45-50-48"]),
         ("MW", JsonVal.jarr [JsonVal.jstr "1234.56", JsonVal.jstr "1245.67", JsonVal.jstr "1256.78"]),
         ("Elapsed", JsonVal.jarr [JsonVal.jstr "100"])] := rfl

/-! ## Claim theorems -/

/-- C9: every `DeviceInfo` built by `DeviceInfo::new(make, model, firmware,
algo)` has `hardware` equal to the static lookup `MinerHardware::from(&model)`
— a function of the model alone — and carries the constructor arguments
unchanged in `make`, `model`, `firmware` and `algo`. (The constructor takes
no hardware argument, so no caller-supplied hardware value is possible.) -/
theorem deviceInfo_new_derives_hardware (make : MinerMake) (model : MinerModel)
    (firmware : MinerFirmware) (algo : HashAlgorithm) :
    (DeviceInfo.new make model firmware algo).hardware = MinerHardware.fromModel model ∧
    (DeviceInfo.new make model firmware algo).make = make ∧
    (DeviceInfo.new make model firmware algo).model = model ∧
    (DeviceInfo.new make model firmware algo).firmware = firmware ∧
    (DeviceInfo.new make model firmware algo).algo = algo :=
  ⟨rfl, rfl, rfl, rfl, rfl⟩

/-- C10: `MinerModelFactory::parse_model` with a configured make other than
AntMiner or WhatsMiner returns `None` for every model string, whatever the
model-table parsers and the configured firmware are — the match on the make
falls into the final catch-all arm. -/
theorem parse_model_none_for_unsupported_makes
    (antFromStr : String → Option AntMinerModel)
    (whatsFromStr : String → Option WhatsMinerModel)
    (braiinsFromStr : String → Option BraiinsModel)
    (make : MinerMake) (fw : Option MinerFirmware) (s : String)
    (h1 : make ≠ MinerMake.AntMiner) (h2 : make ≠ MinerMake.WhatsMiner) :
    MinerModelFactory.parse_model antFromStr whatsFromStr braiinsFromStr
      ⟨some make, fw⟩ s = none := by
  cases make with
  | AntMiner => exact absurd rfl h1
  | WhatsMiner => exact absurd rfl h2
  | AvalonMiner => rfl
  | EPic => rfl
  | Braiins => rfl
  | Bitaxe => rfl

/-- Witness for C10: with make AvalonMiner no string parses — here at the
model string `"AVALON1066"` with arbitrary (empty) table parsers. -/
theorem parse_model_none_for_unsupported_makes_witness :
    MinerModelFactory.parse_model (fun _ => none) (fun _ => none) (fun _ => none)
      ⟨some MinerMake.AvalonMiner, none⟩ "AVALON1066" = none :=
  parse_model_none_for_unsupported_makes (fun _ => none) (fun _ => none)
    (fun _ => none) MinerMake.AvalonMiner none "AVALON1066"
    (by decide) (by decide)

/-- The RPC `version` response of the C1 scenario:
`{"VERSION":[{"PROD":"AVALON1066-something"}]}`. -/
def c1VersionResponse : JsonVal :=
  JsonVal.jobj [("VERSION", JsonVal.jarr [JsonVal.jobj [("PROD", JsonVal.jstr "AVALON1066-something")]])]

/-- C1 counterexample: on `{"VERSION":[{"PROD":"AVALON1066-something"}]}` the
resolver returns `None`, not a known AvalonMiner model variant (shown here
with empty table parsers; the amended theorem shows the parsers are
irrelevant). -/
theorem get_model_avalonminer_avalon1066_refuted :
    get_model_avalonminer (fun _ => none) (fun _ => none) (fun _ => none)
      c1VersionResponse = none := rfl

/-- C1 amended: the resolver does uppercase the `PROD` string and strip the
hyphenated suffix, reaching `MinerModelFactory::parse_model` with exactly the
model string `"AVALON1066"` and make AvalonMiner — but that configuration
parses no string at all (it falls into `parse_model`'s catch-all arm), so
the resolution returns `None`, whatever the model-table parsers are. -/
theorem get_model_avalonminer_avalon1066_amended
    (antFromStr : String → Option AntMinerModel)
    (whatsFromStr : String → Option WhatsMinerModel)
    (braiinsFromStr : String → Option BraiinsModel) :
    get_model_avalonminer antFromStr whatsFromStr braiinsFromStr c1VersionResponse
        = MinerModelFactory.parse_model antFromStr whatsFromStr braiinsFromStr
            ⟨some MinerMake.AvalonMiner, none⟩ "AVALON1066" ∧
    get_model_avalonminer antFromStr whatsFromStr braiinsFromStr c1VersionResponse
        = none :=
  ⟨rfl, rfl⟩

/-- C3 counterexample: `extract_from_stats` is an extractor of the Avalon
backend, yet applied with path `None` it returns `None`, not the whole
document — already at the document `null`. -/
theorem extract_from_stats_whole_document_refuted :
    extract_from_stats JsonVal.jnull none = none ∧
    extract_from_stats JsonVal.jnull none ≠ some JsonVal.jnull :=
  ⟨rfl, fun h => Option.noConfusion h⟩

/-- C3 amended: the generic extraction strategies return the whole document
for path `None` (and for `Some("")`), and every extractor is a total
function into `Option` (no panic); but the backend-supplied
`extract_from_stats` requires a key and returns `None` for every document
when the path is `None`. -/
theorem extraction_whole_document_amended :
    (∀ v : JsonVal, jsonExtract v none = some v) ∧
    (∀ v : JsonVal, jsonExtract v (some "") = some v) ∧
    (∀ v : JsonVal, ExtractFunc.apply .get_by_pointer v none = some v) ∧
    (∀ v : JsonVal, ExtractFunc.apply .get_by_key v none = some v) ∧
    (∀ v : JsonVal, extract_from_stats v none = none) :=
  ⟨fun _ => rfl, fun _ => rfl, fun _ => rfl, fun _ => rfl, fun _ => rfl⟩

/-- C8 (the code against the claimed/tested behavior): over the stub
transport whose `stats` response embeds the token `Fan[5000]`, the field map
holds the pointer-extracted `/STATS` array for `Hashboards`, so `get_data`'s
fan population — which looks `"STATS"` up again inside that value — finds
nothing and returns no fans; while the backend's own `extract_fans` applied
to the full response (and its test) produce exactly one fan at position 0
with rpm 5000. -/
theorem avalon_fan5000_pipeline :
    AvalonMiner.get_data_fans avalonStubFieldMap = [] ∧
    avalonStubFieldMap DataField.Hashboards
        = JsonVal.pointer avalonStatsStubResponse "/STATS" ∧
    extract_fans avalonStatsStubResponse none
        = some (JsonVal.jarr [JsonVal.jobj [("position", JsonVal.jnum 0), ("rpm", JsonVal.jnum 5000)]]) ∧
    AvalonMiner.get_data_fans
        (fun f => if f = DataField.Hashboards then some avalonStatsStubResponse else none)
        = [⟨0, some 5000⟩] :=
  ⟨rfl, rfl, rfl, rfl⟩

/-- C2: `parse_type_from_socket` agrees with the spec's priority cascade on
every JSON response; in particular a payload containing both `ANTMINER` and
`DEVDETAILS` (and no earlier-priority token) never classifies as (AntMiner,
Stock), and a payload containing `BOSMINER` always classifies firmware
BraiinsOS, whatever later tokens it also contains. -/
theorem parse_type_from_socket_priority :
    (∀ response : JsonVal, parse_type_from_socket response = classifySocketSpec response) ∧
    (∀ response : JsonVal,
      strContains (socketPayload response) "ANTMINER" = true →
      strContains (socketPayload response) "DEVDETAILS" = true →
      strContains (socketPayload response) "BOSMINER" = false →
      strContains (socketPayload response) "BOSER" = false →
      strContains (socketPayload response) "LUXMINER" = false →
      strContains (socketPayload response) "BITMICRO" = false →
      strContains (socketPayload response) "BTMINER" = false →
      parse_type_from_socket response
        ≠ some (some MinerMake.AntMiner, some MinerFirmware.Stock)) ∧
    (∀ response : JsonVal,
      strContains (socketPayload response) "BOSMINER" = true →
      parse_type_from_socket response = some (none, some MinerFirmware.BraiinsOS)) := by
  refine ⟨fun _ => rfl, ?_, ?_⟩
  · intro response hA hD h1 h2 h3 h4 h5
    simp only [parse_type_from_socket, hA, hD, h1, h2, h3, h4, h5, Bool.or_self,
      Bool.false_or, Bool.not_true, Bool.and_false, if_false]
    split <;> (try split) <;> simp
  · intro response hB
    simp only [parse_type_from_socket, hB, Bool.true_or, if_true]

/-- Witness for C2: a payload carrying both `ANTMINER` and `DEVDETAILS` does
not classify as AntMiner, and one carrying `BOSMINER` (next to a WhatsMiner
token) classifies as BraiinsOS. -/
theorem parse_type_from_socket_priority_witness :
    parse_type_from_socket (JsonVal.jstr "antminer devdetails")
        ≠ some (some MinerMake.AntMiner, some MinerFirmware.Stock) ∧
    parse_type_from_socket (JsonVal.jstr "bosminer btminer")
        = some (none, some MinerFirmware.BraiinsOS) :=
  ⟨parse_type_from_socket_priority.2.1 (JsonVal.jstr "antminer devdetails")
      (by decide) (by decide) (by decide) (by decide) (by decide) (by decide) (by decide),
    parse_type_from_socket_priority.2.2 (JsonVal.jstr "bosminer btminer") (by decide)⟩

/-- Case analysis of `parse_rpc_result` on an already-parsed value: success
happens exactly at status `"S"` or `"I"`, and the success value is the
parsed document itself. -/
theorem parse_rpc_result_some (parsed j : JsonVal) :
    parse_rpc_result (some parsed) = .ok j ↔
      (parsed = j ∧ (rpcStatusField parsed = some "S" ∨ rpcStatusField parsed = some "I")) := by
  unfold parse_rpc_result rpcStatusField
  rcases hA : (jsonGet parsed "STATUS").bind JsonVal.asArray with _ | (_ | ⟨s0, rest⟩)
  · simp [hA]
  · simp [hA]
  · rcases hS : (jsonGet s0 "STATUS").bind JsonVal.asStr with _ | st
    · simp [hA, hS]
    · unfold RPCCommandStatus.from_str
      by_cases hs1 : st = "S"
      · subst hs1
        simp [hA, hS, RPCCommandStatus.into_result]
      · by_cases hs2 : st = "I"
        · subst hs2
          simp [hA, hS, hs1, RPCCommandStatus.into_result]
        · by_cases hs3 : st = "E" <;>
            simp [hA, hS, hs1, hs2, hs3, RPCCommandStatus.into_result]

/-- C6: `parse_rpc_result` returns `Ok` with the parsed JSON exactly when the
response text parses as a JSON document whose `STATUS[0].STATUS` string is
`"S"` or `"I"`; an `"E"` status, any unrecognized status, a missing or
non-conforming `STATUS` structure, or unparseable text all yield `Err`, and
a success never carries anything but the parsed document itself. -/
theorem parse_rpc_result_ok_iff_status (p : Option JsonVal) (j : JsonVal) :
    parse_rpc_result p = .ok j ↔
      (p = some j ∧ (rpcStatusField j = some "S" ∨ rpcStatusField j = some "I")) := by
  cases p with
  | none => simp [parse_rpc_result]
  | some parsed =>
    rw [parse_rpc_result_some]
    constructor
    · rintro ⟨rfl, h⟩
      exact ⟨rfl, h⟩
    · rintro ⟨hp, h⟩
      cases hp
      exact ⟨rfl, h⟩

/-- Model of `okSome` keeps a value exactly on an `Ok(Some(..))` per-host outcome. -/
theorem okSome_eq_some {E M : Type} (r : Except E (Option M)) (m : M) :
    okSome r = some m ↔ r = .ok (some m) := by
  rcases r with e | (_ | x) <;> simp [okSome]

/-- Counting: a filter-mapped sweep loses exactly the hosts whose outcome was
filtered away. -/
theorem filterMap_length_add_countP {Ip M : Type} (f : Ip → Option M) (l : List Ip) :
    (l.filterMap f).length + l.countP (fun a => (f a).isNone) = l.length := by
  induction l with
  | nil => rfl
  | cons a t ih =>
    rcases hfa : f a with _ | m <;>
      simp [List.filterMap_cons, List.countP_cons, hfa, ← ih] <;> omega

/-- C7: with a well-formed CIDR range (the range parser yields its host
list), `get_miners_with_options` succeeds and returns exactly the miners of
the hosts whose `get_miner` call returned `Ok(Some(..))`: membership in the
result is equivalent to such a host existing, a failing or miner-less host is
silently omitted without failing the sweep, and scanning N hosts of which k
do not produce a miner yields N − k results. -/
theorem get_miners_with_options_partial_failures {Ip E M : Type}
    (parseRange : String → Option (List Ip)) (getMiner : Ip → Except E (Option M))
    (ip_range : String) (hosts : List Ip)
    (h : parseRange ip_range = some hosts) :
    get_miners_with_options parseRange getMiner ip_range
        = .ok (scanHosts getMiner hosts) ∧
    (∀ m : M, m ∈ scanHosts getMiner hosts ↔ ∃ ip ∈ hosts, getMiner ip = .ok (some m)) ∧
    (scanHosts getMiner hosts).length
        = hosts.length - hosts.countP (fun ip => (okSome (getMiner ip)).isNone) := by
  refine ⟨by simp [get_miners_with_options, h], ?_, ?_⟩
  · intro m
    simp only [scanHosts, List.mem_filterMap]
    constructor
    · rintro ⟨ip, hip, hok⟩
      exact ⟨ip, hip, (okSome_eq_some _ _).mp hok⟩
    · rintro ⟨ip, hip, hok⟩
      exact ⟨ip, hip, (okSome_eq_some _ _).mpr hok⟩
  · have := filterMap_length_add_countP (fun ip => okSome (getMiner ip)) hosts
    simp only [scanHosts]
    omega

/-- The range parser of the C7 witness scenario: one well-formed range of
four hosts. -/
def c7ParseRange : String → Option (List Nat) :=
  fun s => if s == "10.0.0.0/30" then some [0, 1, 2, 3] else none

/-- The per-host outcomes of the C7 witness scenario: hosts 0 and 1 yield
miners, host 2 errors, host 3 finds no miner. -/
def c7GetMiner : Nat → Except String (Option Nat) :=
  fun ip =>
    if ip == 2 then .error "connection refused"
    else if ip == 3 then .ok none
    else .ok (some ip)

/-- Witness for C7: the four-host scan with one error and one miner-less host
returns exactly the two successful miners. -/
theorem get_miners_with_options_partial_failures_witness :
    get_miners_with_options c7ParseRange c7GetMiner "10.0.0.0/30" = .ok [0, 1] ∧
    (scanHosts c7GetMiner [0, 1, 2, 3]).length = 4 - 2 := by
  have h := get_miners_with_options_partial_failures c7ParseRange c7GetMiner
    "10.0.0.0/30" [0, 1, 2, 3] (by decide)
  refine ⟨?_, ?_⟩
  · rw [h.1]; rfl
  · rw [h.2.2]; rfl

/-- A lawful command equality makes the `HashSet` membership probe of
`dedupInsert` coincide with list membership. -/
theorem any_beq_iff_mem {C : Type} (beq : C → C → Bool)
    (hlaw : ∀ a b : C, beq a b = true ↔ a = b) (l : List C) (c : C) :
    l.any (fun x => beq x c) = true ↔ c ∈ l := by
  induction l with
  | nil => simp
  | cons a t ih =>
    simp only [List.any_cons, Bool.or_eq_true, ih, List.mem_cons, hlaw]
    constructor
    · rintro (rfl | h)
      · exact Or.inl rfl
      · exact Or.inr h
    · rintro (rfl | h)
      · exact Or.inl rfl
      · exact Or.inr h

/-- Folding `dedupInsert` over any input keeps the accumulated command set
free of duplicates. -/
theorem foldl_dedupInsert_nodup {C : Type} (beq : C → C → Bool)
    (hlaw : ∀ a b : C, beq a b = true ↔ a = b) (l : List C) (acc : List C)
    (hacc : acc.Nodup) : (l.foldl (dedupInsert beq) acc).Nodup := by
  induction l generalizing acc with
  | nil => exact hacc
  | cons a t ih =>
    simp only [List.foldl_cons]
    apply ih
    unfold dedupInsert
    by_cases hmem : acc.any (fun x => beq x a) = true
    · simp [hmem, hacc]
    · have : a ∉ acc := fun hin => hmem ((any_beq_iff_mem beq hlaw acc a).mpr hin)
      simp [hmem, List.nodup_append, hacc, this]

/-- Under a lawful command equality, a duplicate-free command list matches
any given command at most once. -/
theorem nodup_countP_beq_le_one {C : Type} (beq : C → C → Bool)
    (hlaw : ∀ a b : C, beq a b = true ↔ a = b) (l : List C) (hl : l.Nodup)
    (c : C) : l.countP (fun x => beq x c) ≤ 1 := by
  induction l with
  | nil => simp
  | cons a t ih =>
    rcases List.nodup_cons.mp hl with ⟨hna, hnt⟩
    rw [List.countP_cons]
    by_cases hac : beq a c = true
    · have haceq : a = c := (hlaw a c).mp hac
      have hzero : t.countP (fun x => beq x c) = 0 := by
        apply List.countP_eq_zero.mpr
        intro b hb hbc
        have : b = c := (hlaw b c).mp hbc
        exact hna (haceq ▸ this ▸ hb)
      simp [hzero, hac]
    · have := ih hnt
      simp only [Bool.not_eq_true] at hac
      simp [hac]
      omega

/-- C5: one `collect_all` pass deduplicates the commands referenced by the
requested fields before dispatch — for any lawful structural command
equality, every command occurs at most once in the distinct-command set the
collector issues — and on the WhatsMiner v3 location map the Fans, Uptime,
Wattage and Hashrate fields all reference the single
`get.miner.status`/`summary` command, which occurs exactly once in the
deduplicated command set of an all-fields pass. -/
theorem collector_dedups_commands :
    (∀ (C F E : Type) (beq : C → C → Bool),
      (∀ a b : C, beq a b = true ↔ a = b) →
      ∀ (locs : F → List (C × E)) (fields : List F) (c : C),
        (neededCommands beq locs fields).countP (fun x => beq x c) ≤ 1) ∧
    ((WhatsMinerV3.get_locations DataField.Fans).map Prod.fst
        = [get_miner_status_summary_cmd] ∧
     (WhatsMinerV3.get_locations DataField.Uptime).map Prod.fst
        = [get_miner_status_summary_cmd] ∧
     (WhatsMinerV3.get_locations DataField.Wattage).map Prod.fst
        = [get_miner_status_summary_cmd] ∧
     (WhatsMinerV3.get_locations DataField.Hashrate).map Prod.fst
        = [get_miner_status_summary_cmd]) ∧
    (neededCommands MinerCommand.beq WhatsMinerV3.get_locations allDataFields).countP
        (fun x => MinerCommand.beq x get_miner_status_summary_cmd) = 1 := by
  refine ⟨?_, ⟨rfl, rfl, rfl, rfl⟩, by decide⟩
  intro C F E beq hlaw locs fields c
  exact nodup_countP_beq_le_one beq hlaw _
    (foldl_dedupInsert_nodup beq hlaw _ [] List.nodup_nil) c

/-- Witness for C5: the deduplication bound applied at a concrete lawful
equality, location map and field list. -/
theorem collector_dedups_commands_witness :
    (neededCommands (fun a b : Bool => a == b)
        (fun _ : Unit => [(true, 0), (true, 1)]) [(), ()]).countP
      (fun x => x == true) ≤ 1 :=
  collector_dedups_commands.1 Bool Unit Nat (fun a b => a == b)
    (fun a b => by cases a <;> cases b <;> decide)
    (fun _ => [(true, 0), (true, 1)]) [(), ()] true
